import Mathlib

/-!
Verification of the Ribbon SBC CDR condensed parser
(`src/ribbon_cdr_parser/Ribbon_SBC_CDR_parser.py`), centred on the pure
decoding function `parse_cdr_to_dict`.

Modelling conventions:
* Python strings are Lean `String`s (a wrapper around `List Char`);
  the character-level helpers work on `List Char`.
* Python floats are modelled as exact rationals `ℚ`.
* Python `try/except (TypeError, ValueError)` around `int(...)` is
  modelled by pattern matching on an `Option Int` returned by the
  integer-parsing primitive.
* Python dicts are association lists; a later assignment shadows an
  earlier one, and lookup returns the most recent binding.
-/

/-- The double-quote character, written numerically. -/
def quoteCh : Char := Char.ofNat 34

/-- The single-quote character, written numerically. -/
def squoteCh : Char := Char.ofNat 39

/-- ASCII whitespace recognised by Python `str.strip()` (restricted to
the ASCII range: space, tab, newline, vertical tab, form feed,
carriage return). -/
def isPyWs (c : Char) : Bool :=
  c == ' ' || c.toNat == 9 || c.toNat == 10 || c.toNat == 11 ||
    c.toNat == 12 || c.toNat == 13

/-- `str.strip()` on a character list: drop whitespace from both ends. -/
def pyStripL (l : List Char) : List Char :=
  ((l.dropWhile isPyWs).reverse.dropWhile isPyWs).reverse

/-- `str.strip()` on a `String`. -/
def pyStrip (s : String) : String :=
  String.mk (pyStripL s.data)

/-- `str.split(sep)` for a one-character separator `c`: split at every
occurrence, keeping empty tokens (Python semantics for a non-empty
separator). -/
def splitOnChar (c : Char) (l : List Char) : List (List Char) :=
  l.foldr
    (fun x acc =>
      if x = c then [] :: acc
      else
        match acc with
        | [] => [[x]]
        | y :: ys => (x :: y) :: ys)
    [[]]

/-- `str.split(sep)` for a one-character separator, on `String`s. -/
def pySplitCh (c : Char) (s : String) : List String :=
  (splitOnChar c s.data).map String.mk

/-- `needle` starts `hay` (character-list prefix test). -/
def startsWithCh : List Char → List Char → Bool
  | [], _ => true
  | _ :: _, [] => false
  | a :: as, b :: bs => a == b && startsWithCh as bs

/-- `needle` occurs somewhere inside `hay` (character-list version of
Python's substring `in`). -/
def isSubCh (n : List Char) : List Char → Bool
  | [] => startsWithCh n []
  | h :: t => startsWithCh n (h :: t) || isSubCh n t

/-- Python's substring test `needle in hay`. -/
def containsSub (needle hay : String) : Bool :=
  isSubCh needle.data hay.data

/-- `str.lower()` (ASCII case folding). -/
def pyLower (s : String) : String :=
  String.mk (s.data.map Char.toLower)

/--
`re.sub(r'"[^"]*"', '', raw)` from line 133 of the source: delete every
maximal `"…"` span.  Implemented as a single scan: outside a quoted
region characters are emitted; a quote opens a pending region; a second
quote discards the pending region (both quotes included); an unmatched
final quote leaves its pending text intact, exactly as the regex leaves
an unclosed quote untouched.  The accumulator holds the pending region
reversed, starting with the opening quote.
-/
def removeQuotedGo : List Char → Option (List Char) → List Char
  | [], none => []
  | [], some pend => pend.reverse
  | c :: rest, none =>
      if c = quoteCh then removeQuotedGo rest (some [c])
      else c :: removeQuotedGo rest none
  | c :: rest, some pend =>
      if c = quoteCh then removeQuotedGo rest none
      else removeQuotedGo rest (some (c :: pend))

/-- Quoted-span removal on character lists, started outside a span. -/
def removeQuotedL (l : List Char) : List Char :=
  removeQuotedGo l none

/-! ## Integer parsing and number formatting primitives -/

/-- One step of digit accumulation: ASCII digits only, with single
underscores allowed between digits (Python `int` literal grouping).
`lastWasDigit` tracks whether an underscore may appear here. -/
def pyIntDigits : List Char → Bool → Option Nat → Option Nat
  | [], lastWasDigit, acc => if lastWasDigit then acc else none
  | c :: rest, lastWasDigit, acc =>
      if c.isDigit then
        pyIntDigits rest true (some ((acc.getD 0) * 10 + (c.toNat - 48)))
      else if c.toNat = 95 && lastWasDigit then
        pyIntDigits rest false acc
      else none

/-- Python `int(s)` for a string argument, returning `none` where the
Python call raises `ValueError`: optional surrounding whitespace, an
optional sign, then a non-empty ASCII digit sequence (underscore
grouping allowed). -/
def pyInt (s : String) : Option Int :=
  let core := pyStripL s.data
  match core with
  | [] => none
  | c :: rest =>
      if c = '+' then (pyIntDigits rest false none).map (fun n => (n : Int))
      else if c = '-' then (pyIntDigits rest false none).map (fun n => -(n : Int))
      else (pyIntDigits core false none).map (fun n => (n : Int))

/-- Python `str(i)` for an integer. -/
def pyIntStr (i : Int) : String := toString i

/-- Round the fraction `num / den` (with `den > 0`) to the nearest
integer, ties to even — the rounding used when formatting with one
decimal place.  Integer arithmetic only, so the kernel can evaluate it. -/
def roundHalfEvenFrac (num den : Int) : Int :=
  let f := Int.fdiv num den
  let r2 := 2 * (num - f * den)
  if r2 < den then f
  else if den < r2 then f + 1
  else if f % 2 = 0 then f else f + 1

/-- Python `f"{x:.1f}"` applied to the exact value `num / den`
(`den > 0`): fixed-point rendering with one decimal digit.  The Python
float value is modelled as the exact fraction it approximates. -/
def fmtFrac1 (num den : Int) : String :=
  let n := roundHalfEvenFrac (10 * num) den
  if n < 0 then
    "-" ++ toString ((-n).toNat / 10) ++ "." ++ toString ((-n).toNat % 10)
  else toString (n.toNat / 10) ++ "." ++ toString (n.toNat % 10)

/-- ASCII rendering of one character inside a Python `repr` of a string:
backslash and the chosen quote are escaped, the common control
characters get their short escapes, other control characters get a
`\xHH` escape. -/
def pyReprChar (quote : Char) (c : Char) : List Char :=
  if c = '\\' then ['\\', '\\']
  else if c = quote then ['\\', quote]
  else if c.toNat = 10 then ['\\', 'n']
  else if c.toNat = 13 then ['\\', 'r']
  else if c.toNat = 9 then ['\\', 't']
  else if c.toNat < 32 || c.toNat = 127 then
    let h := c.toNat
    ['\\', 'x', Nat.digitChar (h / 16), Nat.digitChar (h % 16)]
  else [c]

/-- Python `repr(s)` for a string (ASCII range): single quotes unless
the string contains a single quote and no double quote, in which case
double quotes are used. -/
def pyReprStr (s : String) : String :=
  let quote :=
    if s.data.contains squoteCh && !(s.data.contains quoteCh) then quoteCh
    else squoteCh
  String.mk (quote :: (s.data.flatMap (pyReprChar quote)) ++ [quote])

/-- Python `str(xs)` for a list of strings, as interpolated by an
f-string: `[repr e1, repr e2, ...]` joined with `, `. -/
def pyListRepr (xs : List String) : String :=
  "[" ++ String.intercalate ", " (xs.map pyReprStr) ++ "]"

/-! ## Values and dictionaries -/

/-- A value stored in the parsed-data dict: a string, a number (the
`duration` float, modelled as an exact rational), or a list of strings
(`calling_name`). -/
inductive Value where
  | s (x : String)
  | q (x : ℚ)
  | ls (xs : List String)
deriving DecidableEq

/-- Python dict, modelled as an association list where the head is the
most recent binding; assignment conses, lookup takes the first hit. -/
abbrev Dict := List (String × Value)

/-- Dict lookup: first (most recent) binding wins. -/
def dget : Dict → String → Option Value
  | [], _ => none
  | (k', v) :: rest, k => if k' = k then some v else dget rest k

/-- Dict assignment `d[k] = v`. -/
def dset (d : Dict) (k : String) (v : Value) : Dict := (k, v) :: d

/-- Python `d.update(sub)`: every binding of `sub` shadows `d`;
within `sub` the most recent binding stays the most recent. -/
def dupdate (d : Dict) (sub : Dict) : Dict := sub ++ d

/-- Python `d.setdefault(k, v)`. -/
def dsetdefault (d : Dict) (k : String) (v : Value) : Dict :=
  match dget d k with
  | some _ => d
  | none => dset d k v

/-- `k` is a key of `d`. -/
def hasKey (d : Dict) (k : String) : Prop := (dget d k).isSome = true

instance (d : Dict) (k : String) : Decidable (hasKey d k) := by
  unfold hasKey; infer_instance

/-! ## External lookup tables

The module `cdr_field_mappings` imported by the parser is not part of
the sources under verification; its tables are pure configuration data.
-/

/-- Look a key up in a configuration table, with a default
(Python `dict.get(key, default)`). -/
def getTbl (tbl : List (String × String)) (k : String) (dflt : String) : String :=
  match tbl.find? (fun p => p.1 = k) with
  | some p => p.2
  | none => dflt

/-- Modelled from the spec: `cdr_disconnect_reason` is an external
configuration table (disconnect-reason code → text) supplied by the
missing `cdr_field_mappings` module; no claim depends on its entries,
so it is modelled as the empty table and every lookup falls back to
the default `"Unknown Code"`. -/
def cdr_disconnect_reason : List (String × String) := []

/-- Modelled from the spec: `sip_cause_code_mapping` is an external
configuration table (SIP response code → text) supplied by the missing
`cdr_field_mappings` module; no claim depends on its entries, so it is
modelled as the empty table. -/
def sip_cause_code_mapping : List (String × String) := []

/-! ## Helpers translated from the source -/

/-- `safe_get` (source lines 32-50): total indexing into a list of
strings with a caller-supplied default; negative or out-of-bounds
indices return the default.  (The `isinstance(idx, int)` guard is
vacuous here because the index is typed.) -/
def safe_get (seq : List String) (idx : Int) (dflt : String) : String :=
  if 0 ≤ idx ∧ idx < (seq.length : Int) then seq.getD idx.toNat dflt
  else dflt

/-- `get_codec_value` (source lines 52-64). -/
def get_codec_value (codec : String) : String :=
  if codec = "P:4:0" then "G.729A"
  else if codec = "P:2:1" then "G.711 w/ Silence Suppression"
  else if codec = "P:1:1" then "G.711 u-law"
  else if codec = "P:6:0" then "Fax Relay"
  else "N/A"

/-- `extract_device_name_from_contact` (source lines 66-86). -/
def extract_device_name_from_contact (inv_contact_header : String) : String :=
  if inv_contact_header = "" then "N/A"
  else
    let h := pyStrip inv_contact_header
    let hl := pyLower h
    if !(containsSub "csf" hl || containsSub "sep" hl || containsSub "vms" hl) then
      "N/A"
    else
      let parts := pySplitCh '=' h
      let want : Int := if containsSub "transport" hl then 2 else 1
      if want < (parts.length : Int) ∧ pyStrip (safe_get parts want "") ≠ "" then
        pyStrip (safe_get parts want "")
      else "N/A"

/-- `parse_prot_data_side` (source lines 88-126), with the Python
parameter `side_prefix` shortened to `side`.  Returns the sub-dict that
the caller merges with `dict.update`. -/
def parse_prot_data_side (prot_data : List String) (side : String)
    (contact_idx : Int) : Dict :=
  let out := dset (dset [] (side ++ "_call_id") (Value.s "N/A"))
    (side ++ "_status") (Value.s "N/A")
  if prot_data.length < 19 then out
  else
    let call_id := pyStrip (safe_get prot_data 1 "")
    let status_code := pyStrip (safe_get prot_data 18 "")
    let out := if call_id ≠ "" then dset out (side ++ "_call_id") (Value.s call_id) else out
    let sip_key := if status_code ≠ "" then "sip_" ++ status_code else "sip_UNKNOWN"
    let sip_name :=
      if sip_key ≠ "sip_BYE" then getTbl sip_cause_code_mapping sip_key "Unknown Code"
      else "BYE"
    let code_display := if status_code ≠ "" then status_code else "UNKNOWN"
    let out := dset out (side ++ "_status") (Value.s (code_display ++ " (" ++ sip_name ++ ")"))
    let inv_contact_header := safe_get prot_data contact_idx ""
    let out_key_device := if side = "ingress" then "ing_device_name" else "egr_device_name"
    dset out out_key_device (Value.s (extract_device_name_from_contact inv_contact_header))

/-! ## The decoder `parse_cdr_to_dict` (source lines 128-463)

The function reads its input only through three tokenisations of the
stripped line (plain comma split, double-quote split, comma split of
the quote-span-redacted line); `decodeCore` takes those three token
lists, and `parse_cdr_to_dict` produces them.
-/

/-- `fields = raw_cdr.strip().split(",")` (source line 138). -/
def fieldsOf (raw : String) : List String :=
  (splitOnChar ',' (pyStripL raw.data)).map String.mk

/-- `cdr_fields_parsed = raw_cdr.strip().split('"')` (source line 139). -/
def quotedSplitOf (raw : String) : List String :=
  (splitOnChar quoteCh (pyStripL raw.data)).map String.mk

/-- `cdr_fields_without_prot_data` (source lines 133-134): comma split
of the stripped line with every `"…"` span deleted. -/
def unquotedFieldsOf (raw : String) : List String :=
  (splitOnChar ',' (pyStripL (removeQuotedL raw.data))).map String.mk

/-- The record-type discriminator `cdr_type = safe_get(fields, 0)`. -/
def cdr_typeOfF (fields : List String) : String := safe_get fields 0 ""

/-- `ingr_prot_data_ck` (source lines 142-148): the type-specific
checker field. -/
def ingrCkOfF (fields : List String) : String :=
  let cdr_type := cdr_typeOfF fields
  if cdr_type = "ATTEMPT" then safe_get fields 44 ""
  else if cdr_type = "STOP" then safe_get fields 51 ""
  else if cdr_type = "START" then safe_get fields 41 ""
  else ""

/-- `"SIP" in ingr_prot_data_ck or "GSX2GSX" in ingr_prot_data_ck`
(source line 151). -/
def sipCheck (ck : String) : Bool :=
  containsSub "SIP" ck || containsSub "GSX2GSX" ck

/-- `ingr_raw` (source line 152): present only in the SIP/GSX2GSX
branch. -/
def ingrRawOfQ (qsplit : List String) (ck : Bool) : String :=
  if ck then pyStrip (safe_get qsplit 1 "") else ""

/-- `egr_raw` (source lines 153 and 159): quote-split index 3 in the
SIP/GSX2GSX branch, index 1 otherwise. -/
def egrRawOfQ (qsplit : List String) (ck : Bool) : String :=
  if ck then pyStrip (safe_get qsplit 3 "") else pyStrip (safe_get qsplit 1 "")

/-- `calling_nm_raw = safe_get(cdr_fields_parsed, 5, "").strip()`
(source line 167). -/
def callingNmRawOfQ (qsplit : List String) : String :=
  pyStrip (safe_get qsplit 5 "")

/-- `x.split(",") if x else []` (source lines 155, 156, 160, 168). -/
def splitIfNonempty (x : String) : List String :=
  if x ≠ "" then pySplitCh ',' x else []

/-- The ingress protocol-trace token list (source lines 152-158). -/
def ingrProtOfQ (qsplit : List String) (ck : Bool) : List String :=
  if ck then splitIfNonempty (ingrRawOfQ qsplit ck) else []

/-- The egress protocol-trace token list after the GW-GW discard
(source lines 153-164): dropped entirely when no token contains
`"SIP"`. -/
def egrProtOfQ (qsplit : List String) (ck : Bool) : List String :=
  let egr := splitIfNonempty (egrRawOfQ qsplit ck)
  if egr.any (fun item => containsSub "SIP" item) then egr else []

/-- `calling_name` (source line 168). -/
def callingNameOfQ (qsplit : List String) : List String :=
  splitIfNonempty (callingNmRawOfQ qsplit)

/-- The calling-number annotation (source lines 199-202, 293-296,
406-410): when `calling_name` is a non-empty list the f-string
interpolates the list itself, producing its Python `str` form. -/
def annotCalling (calling_number : String) (calling_name : List String) : String :=
  if calling_name ≠ [] then
    calling_number ++ " (" ++ pyListRepr calling_name ++ ")"
  else calling_number

/-- The disconnect-reason rendering (source lines 188-192 and 284-288,
identical at both sites). -/
def drRender (dr_code : String) : String :=
  let disconnect_reason := if dr_code ≠ "" then "DR" ++ dr_code else "drUNKNOWN"
  let disconnect_name := getTbl cdr_disconnect_reason disconnect_reason "Unknown Code"
  disconnect_reason ++ " (" ++ disconnect_name ++ ")"

/-- The disconnect-initiator classification (source lines 219-229 and
312-322, identical at both sites). -/
def diRender (disconnect_initiator : String) : String :=
  if disconnect_initiator = "0" then "0 (Internal)"
  else if disconnect_initiator = "1" then "1 (Calling Party)"
  else if disconnect_initiator = "2" then "2 (Called Party)"
  else if disconnect_initiator ≠ "" then
    disconnect_initiator ++ " (Invalid value found)"
  else "N/A"

/-- The RTP `ip:port/ip:port` split (source lines 247-251 and the five
analogous sites): when the raw value is non-empty and contains `/`, the
two halves are stored under the given keys; otherwise nothing is
stored.  The two key names are passed literally by each call site. -/
def rtpSet (d : Dict) (kLocal kRemote : String) (v : String) : Dict :=
  if v ≠ "" ∧ containsSub "/" v then
    let parts := pySplitCh '/' (pyStrip v)
    dset (dset d kLocal (Value.s (safe_get parts 0 "")))
      kRemote (Value.s (safe_get parts 1 ""))
  else d

/-- The duration conversion (source lines 276-282): `int(raw) * 0.01`
then `round(…, 2)`.  The float product of an integer and `0.01` is
modelled as the exact rational, on which rounding to two decimal
places is the identity; an unparsable raw value yields `"N/A"`. -/
def durationValueOf (duration_raw : String) : Value :=
  match pyInt duration_raw with
  | some n => Value.q ((n : ℚ) * 0.01)
  | none => Value.s "N/A"

/-- The packets-lost rendering (source lines 350-365 and 380-395,
identical at both sites): parse both counters as integers (leaving the
previously stored raw `lost` string untouched when either parse fails);
with `lost ≥ 0` and `rcvd > 0` render `"<lost> (<pct>%)"` where `pct`
is the exact value `lost / rcvd * 100` to one decimal place, and
otherwise render `str(lost)` alone. -/
def packetsLostRender (rcvd_raw lost_raw : String) : String :=
  match pyInt rcvd_raw, pyInt lost_raw with
  | some rcvd, some lost =>
      if 0 ≤ lost ∧ 0 < rcvd then
        pyIntStr lost ++ " (" ++ fmtFrac1 (lost * 100) rcvd ++ "%)"
      else pyIntStr lost
  | some _, none => lost_raw
  | none, _ => lost_raw

/-- The `ATTEMPT` branch (source lines 184-270), as an update of the
dict built by the type-agnostic part. -/
def attemptBranch (fields unq : List String) (calling_name : List String)
    (d : Dict) : Dict :=
  let d := dset d "disconnect_time" (Value.s (safe_get fields 9 ""))
  let d := dset d "duration" (Value.s "N/A")
  let d := dset d "disconnect_reason" (Value.s (drRender (safe_get fields 11 "")))
  let sp := safe_get fields 14 ""
  let d := dset d "service_provider" (Value.s (if sp ≠ "" then sp else "N/A"))
  let d := dset d "calling_number" (Value.s (annotCalling (safe_get fields 16 "") calling_name))
  let d := dset d "called_number" (Value.s (safe_get fields 17 ""))
  let d := dset d "billing_number" (Value.s (safe_get fields 24 ""))
  let rl := safe_get fields 25 ""
  let d := dset d "route_label" (Value.s (if rl = "" then "N/A (GW-GW call)" else rl))
  let d := dset d "route_attempt_num" (Value.s (safe_get fields 26 ""))
  let d := dset d "route_selected" (Value.s (safe_get fields 27 ""))
  let d := dset d "ingress_tg" (Value.s (safe_get fields 30 ""))
  let d := dset d "disconnect_initiator" (Value.s (diRender (safe_get unq 56 "")))
  let d := dset d "egress_tg" (Value.s (safe_get unq 57 ""))
  let d := dset d "ingress_codec" (Value.s (get_codec_value (safe_get unq 68 "")))
  let d := dset d "egress_codec" (Value.s (get_codec_value (safe_get unq 69 "")))
  let d := dset d "sbc_call_id" (Value.s (safe_get unq 71 ""))
  let d := dset d "ingress_local_ip" (Value.s (safe_get unq 114 ""))
  let d := dset d "ingress_remote_ip" (Value.s (safe_get unq 115 ""))
  let d := rtpSet d "ingress_local_rtp_ip" "ingress_remote_rtp_ip" (safe_get fields 32 "")
  let d := dset d "ingress_audio_packets_sent" (Value.s "N/A")
  let d := dset d "ingress_audio_packets_rcvd" (Value.s "N/A")
  let d := dset d "ingress_packets_lost" (Value.s "N/A")
  let d := dset d "egress_local_ip" (Value.s (safe_get fields 28 ""))
  let d := dset d "egress_remote_ip" (Value.s (safe_get fields 29 ""))
  let d := rtpSet d "egress_local_rtp_ip" "egress_remote_rtp_ip" (safe_get fields 34 "")
  let d := dset d "egress_audio_packets_sent" (Value.s "N/A")
  let d := dset d "egress_audio_packets_rcvd" (Value.s "N/A")
  let d := dset d "egress_packets_lost" (Value.s "N/A")
  dset d "stop_date" (Value.s (safe_get unq 104 ""))

/-- The `STOP` branch (source lines 272-395). -/
def stopBranch (fields unq : List String) (calling_name : List String)
    (d : Dict) : Dict :=
  let d := dset d "stop_date" (Value.s (safe_get fields 10 ""))
  let d := dset d "disconnect_time" (Value.s (safe_get fields 11 ""))
  let d := dset d "duration" (durationValueOf (safe_get fields 13 ""))
  let d := dset d "disconnect_reason" (Value.s (drRender (safe_get fields 14 "")))
  let sp := safe_get fields 17 ""
  let d := dset d "service_provider" (Value.s (if sp ≠ "" then sp else "N/A"))
  let d := dset d "calling_number" (Value.s (annotCalling (safe_get fields 19 "") calling_name))
  let d := dset d "called_number" (Value.s (safe_get fields 20 ""))
  let d := dset d "billing_number" (Value.s (safe_get fields 27 ""))
  let rl := safe_get fields 28 ""
  let d := dset d "route_label" (Value.s (if rl = "" then "N/A (GW-GW call)" else rl))
  let d := dset d "route_attempt_num" (Value.s (safe_get fields 29 ""))
  let d := dset d "route_selected" (Value.s (safe_get fields 30 ""))
  let d := dset d "ingress_tg" (Value.s (safe_get fields 33 ""))
  let d := dset d "disconnect_initiator" (Value.s (diRender (safe_get unq 63 "")))
  let d := dset d "egress_tg" (Value.s (safe_get unq 67 ""))
  let d := dset d "ingress_codec" (Value.s (get_codec_value (safe_get unq 78 "")))
  let d := dset d "egress_codec" (Value.s (get_codec_value (safe_get unq 79 "")))
  let d := dset d "sbc_call_id" (Value.s (safe_get unq 81 ""))
  let d := dset d "ingress_local_ip" (Value.s (safe_get unq 124 ""))
  let d := dset d "ingress_remote_ip" (Value.s (safe_get unq 125 ""))
  let d := rtpSet d "ingress_local_rtp_ip" "ingress_remote_rtp_ip" (safe_get fields 35 "")
  let d := dset d "ingress_audio_packets_sent" (Value.s (safe_get fields 39 ""))
  let d := dset d "ingress_audio_packets_rcvd" (Value.s (safe_get fields 41 ""))
  let d := dset d "ingress_packets_lost" (Value.s (safe_get unq 64 ""))
  let d := dset d "ingress_packets_lost"
    (Value.s (packetsLostRender (safe_get fields 41 "") (safe_get unq 64 "")))
  let d := dset d "egress_local_ip" (Value.s (safe_get fields 31 ""))
  let d := dset d "egress_remote_ip" (Value.s (safe_get fields 32 ""))
  let d := rtpSet d "egress_local_rtp_ip" "egress_remote_rtp_ip" (safe_get fields 37 "")
  let d := dset d "egress_audio_packets_sent" (Value.s (safe_get unq 145 ""))
  let d := dset d "egress_audio_packets_rcvd" (Value.s (safe_get unq 147 ""))
  let d := dset d "egress_packets_lost" (Value.s (safe_get unq 148 ""))
  dset d "egress_packets_lost"
    (Value.s (packetsLostRender (safe_get unq 147 "") (safe_get unq 148 "")))

/-- The `START` branch (source lines 397-461). -/
def startBranch (fields unq : List String) (calling_name : List String)
    (d : Dict) : Dict :=
  let d := dset d "disconnect_time" (Value.s "N/A")
  let d := dset d "duration" (Value.s "N/A")
  let d := dset d "disconnect_reason" (Value.s "N/A")
  let sp := safe_get fields 12 ""
  let d := dset d "service_provider" (Value.s (if sp ≠ "" then sp else "N/A"))
  let d := dset d "calling_number" (Value.s (annotCalling (safe_get fields 15 "") calling_name))
  let d := dset d "called_number" (Value.s (safe_get fields 16 ""))
  let d := dset d "billing_number" (Value.s (safe_get fields 22 ""))
  let rl := safe_get fields 23 ""
  let d := dset d "route_label" (Value.s (if rl = "" then "N/A (GW-GW call)" else rl))
  let d := dset d "route_attempt_num" (Value.s (safe_get fields 24 ""))
  let d := dset d "route_selected" (Value.s (safe_get fields 25 ""))
  let d := dset d "ingress_tg" (Value.s (safe_get fields 28 ""))
  let d := dset d "disconnect_initiator" (Value.s "N/A")
  let d := dset d "egress_tg" (Value.s (safe_get unq 53 ""))
  let d := dset d "ingress_codec" (Value.s "N/A")
  let d := dset d "egress_codec" (Value.s "N/A")
  let d := dset d "sbc_call_id" (Value.s (safe_get unq 64 ""))
  let d := dset d "ingress_local_ip" (Value.s (safe_get unq 101 ""))
  let d := dset d "ingress_remote_ip" (Value.s (safe_get unq 102 ""))
  let d := rtpSet d "ingress_local_rtp_ip" "ingress_remote_rtp_ip" (safe_get fields 30 "")
  let d := dset d "ingress_audio_packets_sent" (Value.s "N/A")
  let d := dset d "ingress_audio_packets_rcvd" (Value.s "N/A")
  let d := dset d "ingress_packets_lost" (Value.s "N/A")
  let d := dset d "egress_local_ip" (Value.s (safe_get fields 26 ""))
  let d := dset d "egress_remote_ip" (Value.s (safe_get fields 27 ""))
  let d := rtpSet d "egress_local_rtp_ip" "egress_remote_rtp_ip" (safe_get fields 32 "")
  let d := dset d "egress_audio_packets_sent" (Value.s "N/A")
  let d := dset d "egress_audio_packets_rcvd" (Value.s "N/A")
  dset d "egress_packets_lost" (Value.s "N/A")

/-- The type-agnostic part of the decoder (source lines 141-182):
protocol-trace selection, the two leg sub-dicts, the device-name
defaults, and the four always-set scalar keys. -/
def commonPart (fields qsplit : List String) : Dict :=
  let cdr_type := cdr_typeOfF fields
  let ck := sipCheck (ingrCkOfF fields)
  let ingr_prot_data := ingrProtOfQ qsplit ck
  let egr_prot_data := egrProtOfQ qsplit ck
  let calling_name := callingNameOfQ qsplit
  let d : Dict := []
  let d := dset d "calling_name" (Value.ls calling_name)
  let d := dupdate d (parse_prot_data_side ingr_prot_data "ingress" 12)
  let d := dupdate d (parse_prot_data_side egr_prot_data "egress" 13)
  let d := dsetdefault d "ing_device_name" (Value.s "N/A")
  let d := dsetdefault d "egr_device_name" (Value.s "N/A")
  let d := dset d "cdr_type" (Value.s cdr_type)
  let d := dset d "gateway_name" (Value.s (safe_get fields 1 ""))
  let d := dset d "start_date" (Value.s (safe_get fields 5 ""))
  dset d "start_time" (Value.s (safe_get fields 6 ""))

/-- The decoder on the three token lists: the type-agnostic part
followed by the three sequential record-type conditionals of the
source (their conditions are mutually exclusive). -/
def decodeCore (fields qsplit unq : List String) : Dict :=
  let cdr_type := cdr_typeOfF fields
  let calling_name := callingNameOfQ qsplit
  let d := commonPart fields qsplit
  let d := if cdr_type = "ATTEMPT" then attemptBranch fields unq calling_name d else d
  let d := if cdr_type = "STOP" then stopBranch fields unq calling_name d else d
  if cdr_type = "START" then startBranch fields unq calling_name d else d

/-- `parse_cdr_to_dict` (source lines 128-463): the pure decoder from a
raw CDR line to the parsed-data dict. -/
def parse_cdr_to_dict (raw_cdr : String) : Dict :=
  decodeCore (fieldsOf raw_cdr) (quotedSplitOf raw_cdr) (unquotedFieldsOf raw_cdr)

/-! ## Dictionary lemmas -/

theorem dget_dset (d : Dict) (k k' : String) (v : Value) :
    dget (dset d k v) k' = if k = k' then some v else dget d k' := by
  rfl

theorem dget_append (a b : Dict) (k : String) :
    dget (a ++ b) k = (dget a k).orElse (fun _ => dget b k) := by
  induction a with
  | nil => rfl
  | cons p rest ih =>
      obtain ⟨k', v⟩ := p
      by_cases h : k' = k
      · simp [dget, h, Option.orElse]
      · simp [dget, h, ih]

theorem hasKey_dset_iff (d : Dict) (k k' : String) (v : Value) :
    hasKey (dset d k v) k' ↔ k = k' ∨ hasKey d k' := by
  unfold hasKey
  rw [dget_dset]
  by_cases h : k = k' <;> simp [h]

theorem hasKey_dset_self (d : Dict) (k : String) (v : Value) :
    hasKey (dset d k v) k := by
  rw [hasKey_dset_iff]; exact Or.inl rfl

theorem hasKey_dset_mono {d : Dict} {k' : String} (k : String) (v : Value)
    (h : hasKey d k') : hasKey (dset d k v) k' := by
  rw [hasKey_dset_iff]; exact Or.inr h

theorem hasKey_dupdate_right {d : Dict} {k : String} (sub : Dict)
    (h : hasKey d k) : hasKey (dupdate d sub) k := by
  unfold hasKey dupdate at *
  rw [dget_append]
  cases hs : dget sub k <;> simp [Option.orElse, hs, h]

theorem hasKey_dupdate_left {sub : Dict} {k : String} (d : Dict)
    (h : hasKey sub k) : hasKey (dupdate d sub) k := by
  unfold hasKey dupdate at *
  rw [dget_append]
  cases hs : dget sub k with
  | none => rw [hs] at h; simp at h
  | some v => simp [Option.orElse, hs]

theorem hasKey_dsetdefault_self (d : Dict) (k : String) (v : Value) :
    hasKey (dsetdefault d k v) k := by
  unfold dsetdefault
  cases h : dget d k with
  | none => exact hasKey_dset_self d k v
  | some v' => unfold hasKey; simp [h]

theorem hasKey_dsetdefault_mono {d : Dict} {k' : String} (k : String) (v : Value)
    (h : hasKey d k') : hasKey (dsetdefault d k v) k' := by
  unfold dsetdefault
  cases hg : dget d k with
  | none => exact hasKey_dset_mono k v h
  | some v' => exact h

theorem hasKey_rtpSet_mono {d : Dict} {k : String} (kL kR : String) (v : String)
    (h : hasKey d k) : hasKey (rtpSet d kL kR v) k := by
  unfold rtpSet
  split
  · exact hasKey_dset_mono _ _ (hasKey_dset_mono _ _ h)
  · exact h

theorem dget_rtpSet_ne {kL kR k : String} (d : Dict) (v : String)
    (hL : kL ≠ k) (hR : kR ≠ k) :
    dget (rtpSet d kL kR v) k = dget d k := by
  unfold rtpSet
  split
  · rw [dget_dset, if_neg hR, dget_dset, if_neg hL]
  · rfl

/-! ## Key-presence infrastructure -/

theorem hasKey_attemptBranch_mono {d : Dict} {k : String}
    (fields unq nm : List String) (h : hasKey d k) :
    hasKey (attemptBranch fields unq nm d) k := by
  simp only [attemptBranch]
  repeat first
  | apply hasKey_dset_mono
  | apply hasKey_rtpSet_mono
  exact h

theorem hasKey_stopBranch_mono {d : Dict} {k : String}
    (fields unq nm : List String) (h : hasKey d k) :
    hasKey (stopBranch fields unq nm d) k := by
  simp only [stopBranch]
  repeat first
  | apply hasKey_dset_mono
  | apply hasKey_rtpSet_mono
  exact h

theorem hasKey_startBranch_mono {d : Dict} {k : String}
    (fields unq nm : List String) (h : hasKey d k) :
    hasKey (startBranch fields unq nm d) k := by
  simp only [startBranch]
  repeat first
  | apply hasKey_dset_mono
  | apply hasKey_rtpSet_mono
  exact h

theorem hasKey_decodeCore_of_common {fields qsplit unq : List String} {k : String}
    (h : hasKey (commonPart fields qsplit) k) :
    hasKey (decodeCore fields qsplit unq) k := by
  simp only [decodeCore]
  by_cases hA : cdr_typeOfF fields = "ATTEMPT"
  · have hS : ¬ cdr_typeOfF fields = "STOP" := by rw [hA]; decide
    have hT : ¬ cdr_typeOfF fields = "START" := by rw [hA]; decide
    rw [if_neg hT, if_neg hS, if_pos hA]
    exact hasKey_attemptBranch_mono _ _ _ h
  · by_cases hS : cdr_typeOfF fields = "STOP"
    · have hT : ¬ cdr_typeOfF fields = "START" := by rw [hS]; decide
      rw [if_neg hT, if_pos hS, if_neg hA]
      exact hasKey_stopBranch_mono _ _ _ h
    · by_cases hT : cdr_typeOfF fields = "START"
      · rw [if_pos hT, if_neg hS, if_neg hA]
        exact hasKey_startBranch_mono _ _ _ h
      · rw [if_neg hT, if_neg hS, if_neg hA]
        exact h

theorem hasKey_side_call_id (pd : List String) (side : String) (ci : Int) :
    hasKey (parse_prot_data_side pd side ci) (side ++ "_call_id") := by
  simp only [parse_prot_data_side]
  split
  · exact hasKey_dset_mono _ _ (hasKey_dset_self _ _ _)
  · apply hasKey_dset_mono
    apply hasKey_dset_mono
    split
    · exact hasKey_dset_self _ _ _
    · exact hasKey_dset_mono _ _ (hasKey_dset_self _ _ _)

theorem hasKey_side_status (pd : List String) (side : String) (ci : Int) :
    hasKey (parse_prot_data_side pd side ci) (side ++ "_status") := by
  simp only [parse_prot_data_side]
  split
  · exact hasKey_dset_self _ _ _
  · exact hasKey_dset_mono _ _ (hasKey_dset_self _ _ _)

theorem hasKey_commonPart_all (fields qsplit : List String) :
    hasKey (commonPart fields qsplit) "calling_name" ∧
    hasKey (commonPart fields qsplit) "ingress_call_id" ∧
    hasKey (commonPart fields qsplit) "ingress_status" ∧
    hasKey (commonPart fields qsplit) "egress_call_id" ∧
    hasKey (commonPart fields qsplit) "egress_status" ∧
    hasKey (commonPart fields qsplit) "ing_device_name" ∧
    hasKey (commonPart fields qsplit) "egr_device_name" ∧
    hasKey (commonPart fields qsplit) "cdr_type" ∧
    hasKey (commonPart fields qsplit) "gateway_name" ∧
    hasKey (commonPart fields qsplit) "start_date" ∧
    hasKey (commonPart fields qsplit) "start_time" := by
  simp only [commonPart]
  refine ⟨?_, ?_, ?_, ?_, ?_, ?_, ?_, ?_, ?_, ?_, ?_⟩
  · exact hasKey_dset_mono _ _ (hasKey_dset_mono _ _ (hasKey_dset_mono _ _
      (hasKey_dset_mono _ _ (hasKey_dsetdefault_mono _ _ (hasKey_dsetdefault_mono _ _
        (hasKey_dupdate_right _ (hasKey_dupdate_right _
          (hasKey_dset_self _ _ _))))))))
  · exact hasKey_dset_mono _ _ (hasKey_dset_mono _ _ (hasKey_dset_mono _ _
      (hasKey_dset_mono _ _ (hasKey_dsetdefault_mono _ _ (hasKey_dsetdefault_mono _ _
        (hasKey_dupdate_right _ (hasKey_dupdate_left _
          (hasKey_side_call_id _ "ingress" 12))))))))
  · exact hasKey_dset_mono _ _ (hasKey_dset_mono _ _ (hasKey_dset_mono _ _
      (hasKey_dset_mono _ _ (hasKey_dsetdefault_mono _ _ (hasKey_dsetdefault_mono _ _
        (hasKey_dupdate_right _ (hasKey_dupdate_left _
          (hasKey_side_status _ "ingress" 12))))))))
  · exact hasKey_dset_mono _ _ (hasKey_dset_mono _ _ (hasKey_dset_mono _ _
      (hasKey_dset_mono _ _ (hasKey_dsetdefault_mono _ _ (hasKey_dsetdefault_mono _ _
        (hasKey_dupdate_left _ (hasKey_side_call_id _ "egress" 13)))))))
  · exact hasKey_dset_mono _ _ (hasKey_dset_mono _ _ (hasKey_dset_mono _ _
      (hasKey_dset_mono _ _ (hasKey_dsetdefault_mono _ _ (hasKey_dsetdefault_mono _ _
        (hasKey_dupdate_left _ (hasKey_side_status _ "egress" 13)))))))
  · exact hasKey_dset_mono _ _ (hasKey_dset_mono _ _ (hasKey_dset_mono _ _
      (hasKey_dset_mono _ _ (hasKey_dsetdefault_mono _ _ (hasKey_dsetdefault_self _ _ _)))))
  · exact hasKey_dset_mono _ _ (hasKey_dset_mono _ _ (hasKey_dset_mono _ _
      (hasKey_dset_mono _ _ (hasKey_dsetdefault_self _ _ _))))
  · exact hasKey_dset_mono _ _ (hasKey_dset_mono _ _ (hasKey_dset_mono _ _
      (hasKey_dset_self _ _ _)))
  · exact hasKey_dset_mono _ _ (hasKey_dset_mono _ _ (hasKey_dset_self _ _ _))
  · exact hasKey_dset_mono _ _ (hasKey_dset_self _ _ _)
  · exact hasKey_dset_self _ _ _

/-! ## Claim C1 -/

/-- C1: for every string input — including the empty string, a single
comma, and lines with many unbalanced quotes — `parse_cdr_to_dict`
terminates and returns a mapping without raising any exception.  The
embedding is a total function (every fallible primitive is handled at
its use site, as in the source), and for every input the returned
mapping carries all the type-agnostic keys. -/
theorem c1_decode_total (raw_cdr : String) :
    hasKey (parse_cdr_to_dict raw_cdr) "cdr_type" ∧
    hasKey (parse_cdr_to_dict raw_cdr) "gateway_name" ∧
    hasKey (parse_cdr_to_dict raw_cdr) "start_date" ∧
    hasKey (parse_cdr_to_dict raw_cdr) "start_time" ∧
    hasKey (parse_cdr_to_dict raw_cdr) "calling_name" ∧
    hasKey (parse_cdr_to_dict raw_cdr) "ingress_call_id" ∧
    hasKey (parse_cdr_to_dict raw_cdr) "ingress_status" ∧
    hasKey (parse_cdr_to_dict raw_cdr) "egress_call_id" ∧
    hasKey (parse_cdr_to_dict raw_cdr) "egress_status" ∧
    hasKey (parse_cdr_to_dict raw_cdr) "ing_device_name" ∧
    hasKey (parse_cdr_to_dict raw_cdr) "egr_device_name" := by
  obtain ⟨h1, h2, h3, h4, h5, h6, h7, h8, h9, h10, h11⟩ :=
    hasKey_commonPart_all (fieldsOf raw_cdr) (quotedSplitOf raw_cdr)
  exact ⟨hasKey_decodeCore_of_common h8, hasKey_decodeCore_of_common h9,
    hasKey_decodeCore_of_common h10, hasKey_decodeCore_of_common h11,
    hasKey_decodeCore_of_common h1, hasKey_decodeCore_of_common h2,
    hasKey_decodeCore_of_common h3, hasKey_decodeCore_of_common h4,
    hasKey_decodeCore_of_common h5, hasKey_decodeCore_of_common h6,
    hasKey_decodeCore_of_common h7⟩

/-! ## Key-absence infrastructure -/

theorem dget_dsetdefault_ne {k' k : String} (d : Dict) (v : Value) (h : k' ≠ k) :
    dget (dsetdefault d k' v) k = dget d k := by
  unfold dsetdefault
  cases hg : dget d k' with
  | some v' => rfl
  | none => rw [dget_dset, if_neg h]

theorem dget_dupdate_none {d sub : Dict} {k : String}
    (hs : dget sub k = none) (hd : dget d k = none) :
    dget (dupdate d sub) k = none := by
  unfold dupdate
  rw [dget_append, hs, hd]
  rfl

theorem dget_side_none (pd : List String) (side : String) (ci : Int) (k : String)
    (h1 : side ++ "_call_id" ≠ k) (h2 : side ++ "_status" ≠ k)
    (h3 : (if side = "ingress" then "ing_device_name" else "egr_device_name") ≠ k) :
    dget (parse_prot_data_side pd side ci) k = none := by
  simp only [parse_prot_data_side]
  split
  · rw [dget_dset, if_neg h2, dget_dset, if_neg h1]
    rfl
  · rw [dget_dset, if_neg h3, dget_dset, if_neg h2]
    split
    · rw [dget_dset, if_neg h1, dget_dset, if_neg h2, dget_dset, if_neg h1]
      rfl
    · rw [dget_dset, if_neg h2, dget_dset, if_neg h1]
      rfl

/-- The keys populated irrespective of the record type. -/
def typeAgnosticKeys : List String :=
  ["calling_name", "ingress_call_id", "ingress_status", "ing_device_name",
   "egress_call_id", "egress_status", "egr_device_name",
   "cdr_type", "gateway_name", "start_date", "start_time"]

theorem dget_commonPart_none (fields qsplit : List String) (k : String)
    (hk : k ∉ typeAgnosticKeys) :
    dget (commonPart fields qsplit) k = none := by
  simp only [typeAgnosticKeys, List.mem_cons, List.mem_singleton, not_or] at hk
  obtain ⟨n1, n2, n3, n4, n5, n6, n7, n8, n9, n10, n11, -⟩ := hk
  simp only [commonPart]
  rw [dget_dset, if_neg (Ne.symm n11), dget_dset, if_neg (Ne.symm n10),
    dget_dset, if_neg (Ne.symm n9), dget_dset, if_neg (Ne.symm n8),
    dget_dsetdefault_ne _ _ (Ne.symm n7), dget_dsetdefault_ne _ _ (Ne.symm n4)]
  refine dget_dupdate_none (dget_side_none _ _ _ _ ?_ ?_ ?_)
    (dget_dupdate_none (dget_side_none _ _ _ _ ?_ ?_ ?_) ?_)
  · exact Ne.symm n5
  · exact Ne.symm n6
  · exact Ne.symm n7
  · exact Ne.symm n2
  · exact Ne.symm n3
  · exact Ne.symm n4
  · rw [dget_dset, if_neg (Ne.symm n1)]
    rfl

/-! ## Claim C6 -/

/-- C6: for an input line whose first field is none of `START`,
`ATTEMPT`, or `STOP`, the decoder raises no dedicated error (it is the
same total function) and populates only the type-agnostic keys: every
key outside `typeAgnosticKeys` is absent from the result. -/
theorem c6_unrecognized_type (raw_cdr : String) (k : String)
    (hA : cdr_typeOfF (fieldsOf raw_cdr) ≠ "ATTEMPT")
    (hS : cdr_typeOfF (fieldsOf raw_cdr) ≠ "STOP")
    (hT : cdr_typeOfF (fieldsOf raw_cdr) ≠ "START")
    (hk : k ∉ typeAgnosticKeys) :
    dget (parse_cdr_to_dict raw_cdr) k = none := by
  unfold parse_cdr_to_dict
  simp only [decodeCore]
  rw [if_neg hT, if_neg hS, if_neg hA]
  exact dget_commonPart_none _ _ _ hk

/-- Witness for C6 at the concrete unrecognized-type line `"FOO,gw,x"`
and the type-specific key `"duration"`. -/
theorem c6_unrecognized_type_witness :
    dget (parse_cdr_to_dict "FOO,gw,x") "duration" = none :=
  c6_unrecognized_type "FOO,gw,x" "duration"
    (by decide) (by decide) (by decide) (by decide)

/-! ## Claim C5 -/

/-- C5 counterexample: for the line `"FOO,gw"` (unrecognized first
field) the decode output does **not** contain the key
`calling_number`, contradicting the claim that this key is present for
every input line regardless of record type. -/
theorem c5_counterexample :
    dget (parse_cdr_to_dict "FOO,gw") "calling_number" = none := by decide

theorem hasKey_startBranch_main (fields unq nm : List String) (d : Dict) :
    hasKey (startBranch fields unq nm d) "calling_number" ∧
    hasKey (startBranch fields unq nm d) "called_number" ∧
    hasKey (startBranch fields unq nm d) "route_label" ∧
    hasKey (startBranch fields unq nm d) "service_provider" := by
  refine ⟨?_, ?_, ?_, ?_⟩ <;>
    · simp only [startBranch]
      repeat first
        | exact hasKey_dset_self _ _ _
        | apply hasKey_dset_mono
        | apply hasKey_rtpSet_mono

theorem hasKey_attemptBranch_main (fields unq nm : List String) (d : Dict) :
    hasKey (attemptBranch fields unq nm d) "calling_number" ∧
    hasKey (attemptBranch fields unq nm d) "called_number" ∧
    hasKey (attemptBranch fields unq nm d) "route_label" ∧
    hasKey (attemptBranch fields unq nm d) "service_provider" := by
  refine ⟨?_, ?_, ?_, ?_⟩ <;>
    · simp only [attemptBranch]
      repeat first
        | exact hasKey_dset_self _ _ _
        | apply hasKey_dset_mono
        | apply hasKey_rtpSet_mono

theorem hasKey_stopBranch_main (fields unq nm : List String) (d : Dict) :
    hasKey (stopBranch fields unq nm d) "calling_number" ∧
    hasKey (stopBranch fields unq nm d) "called_number" ∧
    hasKey (stopBranch fields unq nm d) "route_label" ∧
    hasKey (stopBranch fields unq nm d) "service_provider" := by
  refine ⟨?_, ?_, ?_, ?_⟩ <;>
    · simp only [stopBranch]
      repeat first
        | exact hasKey_dset_self _ _ _
        | apply hasKey_dset_mono
        | apply hasKey_rtpSet_mono

set_option maxHeartbeats 2000000 in
/-- C5 amended: the listed keys are present for every line whose first
field is `START`, `ATTEMPT` or `STOP` (for an unrecognized first field
the type-specific ones are absent, see C6); and when source data is
absent the defaults are the empty string for `calling_number`,
`called_number` and `gateway_name`, `"N/A"` for `service_provider` and
the device-name keys, and `"N/A (GW-GW call)"` for `route_label` — not
`"N/A"` across the board. -/
theorem c5_amended (raw_cdr : String)
    (h : cdr_typeOfF (fieldsOf raw_cdr) = "START" ∨
      cdr_typeOfF (fieldsOf raw_cdr) = "ATTEMPT" ∨
      cdr_typeOfF (fieldsOf raw_cdr) = "STOP") :
    (hasKey (parse_cdr_to_dict raw_cdr) "calling_number" ∧
     hasKey (parse_cdr_to_dict raw_cdr) "called_number" ∧
     hasKey (parse_cdr_to_dict raw_cdr) "route_label" ∧
     hasKey (parse_cdr_to_dict raw_cdr) "service_provider" ∧
     hasKey (parse_cdr_to_dict raw_cdr) "cdr_type" ∧
     hasKey (parse_cdr_to_dict raw_cdr) "gateway_name" ∧
     hasKey (parse_cdr_to_dict raw_cdr) "start_date" ∧
     hasKey (parse_cdr_to_dict raw_cdr) "start_time" ∧
     hasKey (parse_cdr_to_dict raw_cdr) "ing_device_name" ∧
     hasKey (parse_cdr_to_dict raw_cdr) "egr_device_name") ∧
    (dget (parse_cdr_to_dict "START") "calling_number" = some (Value.s "") ∧
     dget (parse_cdr_to_dict "START") "called_number" = some (Value.s "") ∧
     dget (parse_cdr_to_dict "START") "gateway_name" = some (Value.s "") ∧
     dget (parse_cdr_to_dict "START") "service_provider" = some (Value.s "N/A") ∧
     dget (parse_cdr_to_dict "START") "route_label" =
       some (Value.s "N/A (GW-GW call)") ∧
     dget (parse_cdr_to_dict "START") "ing_device_name" = some (Value.s "N/A")) := by
  constructor
  · obtain ⟨k1, k2, k3, k4, k5, k6, k7, k8, k9, k10, k11⟩ :=
      hasKey_commonPart_all (fieldsOf raw_cdr) (quotedSplitOf raw_cdr)
    refine ⟨?_, ?_, ?_, ?_,
      hasKey_decodeCore_of_common k8, hasKey_decodeCore_of_common k9,
      hasKey_decodeCore_of_common k10, hasKey_decodeCore_of_common k11,
      hasKey_decodeCore_of_common k6, hasKey_decodeCore_of_common k7⟩ <;>
      · unfold parse_cdr_to_dict
        simp only [decodeCore]
        rcases h with hT | hA | hS
        · rw [if_pos hT]
          first
          | exact (hasKey_startBranch_main _ _ _ _).1
          | exact (hasKey_startBranch_main _ _ _ _).2.1
          | exact (hasKey_startBranch_main _ _ _ _).2.2.1
          | exact (hasKey_startBranch_main _ _ _ _).2.2.2
        · have hS' : ¬ cdr_typeOfF (fieldsOf raw_cdr) = "STOP" := by rw [hA]; decide
          have hT' : ¬ cdr_typeOfF (fieldsOf raw_cdr) = "START" := by rw [hA]; decide
          rw [if_neg hT', if_neg hS', if_pos hA]
          first
          | exact (hasKey_attemptBranch_main _ _ _ _).1
          | exact (hasKey_attemptBranch_main _ _ _ _).2.1
          | exact (hasKey_attemptBranch_main _ _ _ _).2.2.1
          | exact (hasKey_attemptBranch_main _ _ _ _).2.2.2
        · have hT' : ¬ cdr_typeOfF (fieldsOf raw_cdr) = "START" := by rw [hS]; decide
          rw [if_neg hT', if_pos hS]
          first
          | exact (hasKey_stopBranch_main _ _ _ _).1
          | exact (hasKey_stopBranch_main _ _ _ _).2.1
          | exact (hasKey_stopBranch_main _ _ _ _).2.2.1
          | exact (hasKey_stopBranch_main _ _ _ _).2.2.2
  · refine ⟨?_, ?_, ?_, ?_, ?_, ?_⟩ <;> decide

/-- Witness for C5 amended at the concrete line `"STOP"`. -/
theorem c5_amended_witness :
    hasKey (parse_cdr_to_dict "STOP") "calling_number" :=
  (c5_amended "STOP" (Or.inr (Or.inr (by decide)))).1.1

/-! ## Split-length lemmas and Claim C2 -/

theorem splitOnChar_cons (c x : Char) (xs : List Char) :
    splitOnChar c (x :: xs) =
      if x = c then [] :: splitOnChar c xs
      else
        match splitOnChar c xs with
        | [] => [[x]]
        | y :: ys => (x :: y) :: ys := rfl

theorem splitOnChar_ne_nil (c : Char) (l : List Char) : splitOnChar c l ≠ [] := by
  induction l with
  | nil => simp [splitOnChar]
  | cons x xs ih =>
      rw [splitOnChar_cons]
      split
      · simp
      · rcases h : splitOnChar c xs with - | ⟨y, ys⟩
        · simp
        · simp [h]

theorem splitOnChar_length (c : Char) (l : List Char) :
    (splitOnChar c l).length = l.count c + 1 := by
  induction l with
  | nil => simp [splitOnChar]
  | cons x xs ih =>
      rw [splitOnChar_cons, List.count_cons]
      by_cases hx : x = c
      · subst hx
        simp [ih]
      · rcases h : splitOnChar c xs with - | ⟨y, ys⟩
        · exact absurd h (splitOnChar_ne_nil c xs)
        · simp only [if_neg hx, h, List.length_cons]
          rw [h] at ih
          simp only [List.length_cons] at ih
          simp [ih, hx]

/-- The number of commas of the line that lie outside every quoted
span, written the way the claim reads: commas remaining after deleting
every quoted span from the (stripped) line. -/
def unquotedCommaCountOf (raw : String) : Nat :=
  (removeQuotedL (pyStripL raw.data)).count ','

/-- C2 counterexample: for the line `a,"b,c",d` — one quoted segment
containing a comma — the claim predicts a top-level field count of
`unquoted commas + 1 = 3`, but `fields` is produced by a plain
`split(",")`, so the comma inside the quotes **does** act as a
delimiter and the count is 4. -/
theorem c2_counterexample :
    ¬ ((fieldsOf "a,\"b,c\",d").length = unquotedCommaCountOf "a,\"b,c\",d" + 1) ∧
    (fieldsOf "a,\"b,c\",d").length = 4 ∧
    unquotedCommaCountOf "a,\"b,c\",d" = 2 := by
  refine ⟨?_, ?_, ?_⟩ <;> decide

/-- C2 amended: the top-level tokenization of `parse_cdr_to_dict` is a
plain comma split — commas inside double-quoted regions also act as
delimiters, so the field count is the count of **all** commas in the
stripped line plus one; separately (and as the claim stated), the
redacted field list equals the comma split of the stripped line after
removing every quoted span. -/
theorem c2_amended (raw_cdr : String) :
    (fieldsOf raw_cdr).length = (pyStripL raw_cdr.data).count ',' + 1 ∧
    unquotedFieldsOf raw_cdr =
      pySplitCh ',' (pyStrip (String.mk (removeQuotedL raw_cdr.data))) := by
  constructor
  · unfold fieldsOf
    rw [List.length_map]
    exact splitOnChar_length ',' (pyStripL raw_cdr.data)
  · rfl

/-! ## Claim C3 -/

theorem annotCalling_nil (calling_number : String) :
    annotCalling calling_number [] = calling_number := by
  simp [annotCalling]

/-- C3 counterexample: on a `START` line whose 1-based field `k` holds
the string `p<k>`, the decoded `calling_number` is `p16` — the value at
1-based position 16 (0-based index 15) — and not the value `p15` at the
1-based position 15 stated by the claim. -/
theorem c3_counterexample :
    dget (parse_cdr_to_dict
        "START,p2,p3,p4,p5,p6,p7,p8,p9,p10,p11,p12,p13,p14,p15,p16,p17")
      "calling_number" = some (Value.s "p16") ∧
    safe_get (fieldsOf
        "START,p2,p3,p4,p5,p6,p7,p8,p9,p10,p11,p12,p13,p14,p15,p16,p17")
      14 "" = "p15" ∧
    ¬ dget (parse_cdr_to_dict
        "START,p2,p3,p4,p5,p6,p7,p8,p9,p10,p11,p12,p13,p14,p15,p16,p17")
      "calling_number" = some (Value.s "p15") := by
  refine ⟨?_, ?_, ?_⟩ <;> decide

set_option maxHeartbeats 1000000 in
/-- C3 amended: the offsets the decoder honours are 0-based indices
into the comma-split field list (equivalently, 1-based positions one
greater than those the claim states): a START record reads the calling
number from index 15 and the called number from index 16, an ATTEMPT
record from indices 16 and 17, and a STOP record reads the duration
from index 13 and the disconnect-reason code from index 14.  (The
calling-name list is assumed empty so that the calling number is not
annotated; see C7 for the annotation.) -/
theorem c3_amended (raw_cdr : String)
    (hname : callingNameOfQ (quotedSplitOf raw_cdr) = []) :
    (cdr_typeOfF (fieldsOf raw_cdr) = "START" →
      dget (parse_cdr_to_dict raw_cdr) "calling_number" =
        some (Value.s (safe_get (fieldsOf raw_cdr) 15 "")) ∧
      dget (parse_cdr_to_dict raw_cdr) "called_number" =
        some (Value.s (safe_get (fieldsOf raw_cdr) 16 ""))) ∧
    (cdr_typeOfF (fieldsOf raw_cdr) = "ATTEMPT" →
      dget (parse_cdr_to_dict raw_cdr) "calling_number" =
        some (Value.s (safe_get (fieldsOf raw_cdr) 16 "")) ∧
      dget (parse_cdr_to_dict raw_cdr) "called_number" =
        some (Value.s (safe_get (fieldsOf raw_cdr) 17 ""))) ∧
    (cdr_typeOfF (fieldsOf raw_cdr) = "STOP" →
      dget (parse_cdr_to_dict raw_cdr) "duration" =
        some (durationValueOf (safe_get (fieldsOf raw_cdr) 13 "")) ∧
      dget (parse_cdr_to_dict raw_cdr) "disconnect_reason" =
        some (Value.s (drRender (safe_get (fieldsOf raw_cdr) 14 "")))) := by
  refine ⟨fun hT => ?_, fun hA => ?_, fun hS => ?_⟩
  · unfold parse_cdr_to_dict
    simp only [decodeCore]
    rw [if_pos hT]
    constructor <;>
      simp [startBranch, dget_dset, dget_rtpSet_ne, hname, annotCalling_nil]
  · have hT' : ¬ cdr_typeOfF (fieldsOf raw_cdr) = "START" := by rw [hA]; decide
    have hS' : ¬ cdr_typeOfF (fieldsOf raw_cdr) = "STOP" := by rw [hA]; decide
    unfold parse_cdr_to_dict
    simp only [decodeCore]
    rw [if_neg hT', if_neg hS', if_pos hA]
    constructor <;>
      simp [attemptBranch, dget_dset, dget_rtpSet_ne, hname, annotCalling_nil]
  · have hT' : ¬ cdr_typeOfF (fieldsOf raw_cdr) = "START" := by rw [hS]; decide
    unfold parse_cdr_to_dict
    simp only [decodeCore]
    rw [if_neg hT', if_pos hS]
    constructor <;>
      simp [stopBranch, dget_dset, dget_rtpSet_ne]
  
/-- Witness for C3 amended at a concrete `START` line. -/
theorem c3_amended_witness :
    dget (parse_cdr_to_dict
        "START,p2,p3,p4,p5,p6,p7,p8,p9,p10,p11,p12,p13,p14,p15,p16,p17")
      "called_number" = some (Value.s "p17") := by
  have h := ((c3_amended
    "START,p2,p3,p4,p5,p6,p7,p8,p9,p10,p11,p12,p13,p14,p15,p16,p17"
    (by decide)).1 (by decide)).2
  exact h.trans (by decide)

/-! ## Claim C7 -/

/-- C7 counterexample: on a `START` line with calling number `5551234`
and calling name `Bob` in its quoted segment, the decoded
`calling_number` is not `"5551234 (Bob)"`: the f-string interpolates
the comma-split **list**, producing the Python list display
`5551234 (['Bob'])`. -/
theorem c7_counterexample :
    dget (parse_cdr_to_dict
        "START,gw,f2,f3,f4,f5,f6,f7,f8,f9,f10,f11,f12,f13,f14,5551234,\"a\",\"b\",\"Bob\"")
      "calling_number" =
        some (Value.s ("5551234 (" ++ pyListRepr ["Bob"] ++ ")")) ∧
    ¬ dget (parse_cdr_to_dict
        "START,gw,f2,f3,f4,f5,f6,f7,f8,f9,f10,f11,f12,f13,f14,5551234,\"a\",\"b\",\"Bob\"")
      "calling_number" = some (Value.s "5551234 (Bob)") ∧
    pyListRepr ["Bob"] ≠ "Bob" := by
  refine ⟨?_, ?_, ?_⟩ <;> decide

set_option maxHeartbeats 1000000 in
/-- C7 amended: for every recognized record type the decoded
`calling_number` is `annotCalling` of the raw number at the
type-specific index and the comma-split calling-name list: when the
list is non-empty the raw number is suffixed with the **Python list
display** of the name list in parentheses (for a single name `nm` that
is `(['nm'])`, not `(nm)`); when it is empty the raw number stands
alone. -/
theorem c7_amended (raw_cdr : String) :
    (cdr_typeOfF (fieldsOf raw_cdr) = "START" →
      dget (parse_cdr_to_dict raw_cdr) "calling_number" =
        some (Value.s (annotCalling (safe_get (fieldsOf raw_cdr) 15 "")
          (callingNameOfQ (quotedSplitOf raw_cdr))))) ∧
    (cdr_typeOfF (fieldsOf raw_cdr) = "ATTEMPT" →
      dget (parse_cdr_to_dict raw_cdr) "calling_number" =
        some (Value.s (annotCalling (safe_get (fieldsOf raw_cdr) 16 "")
          (callingNameOfQ (quotedSplitOf raw_cdr))))) ∧
    (cdr_typeOfF (fieldsOf raw_cdr) = "STOP" →
      dget (parse_cdr_to_dict raw_cdr) "calling_number" =
        some (Value.s (annotCalling (safe_get (fieldsOf raw_cdr) 19 "")
          (callingNameOfQ (quotedSplitOf raw_cdr))))) ∧
    (∀ n : String, annotCalling n [] = n) ∧
    (∀ (n x : String) (xs : List String),
      annotCalling n (x :: xs) = n ++ " (" ++ pyListRepr (x :: xs) ++ ")") := by
  refine ⟨fun hT => ?_, fun hA => ?_, fun hS => ?_, fun n => annotCalling_nil n,
    fun n x xs => by simp [annotCalling]⟩
  · unfold parse_cdr_to_dict
    simp only [decodeCore]
    rw [if_pos hT]
    simp [startBranch, dget_dset, dget_rtpSet_ne]
  · have hT' : ¬ cdr_typeOfF (fieldsOf raw_cdr) = "START" := by rw [hA]; decide
    have hS' : ¬ cdr_typeOfF (fieldsOf raw_cdr) = "STOP" := by rw [hA]; decide
    unfold parse_cdr_to_dict
    simp only [decodeCore]
    rw [if_neg hT', if_neg hS', if_pos hA]
    simp [attemptBranch, dget_dset, dget_rtpSet_ne]
  · have hT' : ¬ cdr_typeOfF (fieldsOf raw_cdr) = "START" := by rw [hS]; decide
    unfold parse_cdr_to_dict
    simp only [decodeCore]
    rw [if_neg hT', if_pos hS]
    simp [stopBranch, dget_dset, dget_rtpSet_ne]

/-- Witness for C7 amended at a concrete `START` line carrying the
calling name `Ann`. -/
theorem c7_amended_witness :
    dget (parse_cdr_to_dict
        "START,gw,f2,f3,f4,f5,f6,f7,f8,f9,f10,f11,f12,f13,f14,777,\"a\",\"b\",\"Ann\"")
      "calling_number" = some (Value.s ("777 (" ++ pyListRepr ["Ann"] ++ ")")) := by
  have h := (c7_amended
    "START,gw,f2,f3,f4,f5,f6,f7,f8,f9,f10,f11,f12,f13,f14,777,\"a\",\"b\",\"Ann\"").1
    (by decide)
  exact h.trans (by decide)

/-! ## Claim C9 -/

/-- C9: for a STOP record the decoded `duration` is the raw field at
index 13 converted by `durationValueOf`: an integer-valued raw string
`n` becomes the number `n * 0.01` (exact hundredths; rounding to two
decimal places is the identity on it), so `"306"` decodes to `3.06`
seconds, and a non-numeric raw value decodes to `"N/A"`. -/
theorem c9_duration (raw_cdr : String)
    (hS : cdr_typeOfF (fieldsOf raw_cdr) = "STOP") :
    dget (parse_cdr_to_dict raw_cdr) "duration" =
      some (durationValueOf (safe_get (fieldsOf raw_cdr) 13 "")) ∧
    durationValueOf "306" = Value.q 3.06 ∧
    durationValueOf "abc" = Value.s "N/A" ∧
    (∀ (s : String) (n : Int), pyInt s = some n →
      durationValueOf s = Value.q ((n : ℚ) * 0.01)) ∧
    (∀ s : String, pyInt s = none → durationValueOf s = Value.s "N/A") := by
  refine ⟨?_, ?_, by decide, fun s n h => by simp [durationValueOf, h],
    fun s h => by simp [durationValueOf, h]⟩
  · have hT' : ¬ cdr_typeOfF (fieldsOf raw_cdr) = "START" := by rw [hS]; decide
    unfold parse_cdr_to_dict
    simp only [decodeCore]
    rw [if_neg hT', if_pos hS]
    simp [stopBranch, dget_dset, dget_rtpSet_ne]
  · have h306 : pyInt "306" = some 306 := by decide
    simp only [durationValueOf, h306]
    norm_num

/-- Witness for C9 at a concrete STOP line whose duration field is
`306`. -/
theorem c9_duration_witness :
    dget (parse_cdr_to_dict "STOP,a,b,c,d,e,f,g,h,i,j,k,l,306")
      "duration" = some (Value.q 3.06) := by
  have h := (c9_duration "STOP,a,b,c,d,e,f,g,h,i,j,k,l,306" (by decide)).1
  rw [h, show safe_get (fieldsOf "STOP,a,b,c,d,e,f,g,h,i,j,k,l,306") 13 "" = "306"
    from by decide]
  exact congrArg some (c9_duration "STOP,a,b,c,d,e,f,g,h,i,j,k,l,306" (by decide)).2.1

/-! ## Claim C8 -/

set_option maxHeartbeats 1000000 in
/-- C8: for a STOP record the two packets-lost fields are rendered by
`packetsLostRender` from the received-count and lost-count raw fields:
if either count fails to parse as an integer the raw lost string is
left untouched; if `rcvd > 0` and `lost ≥ 0` the result is
`"<lost> (<pct>%)"` with `pct` the exact value `lost / rcvd * 100` to
one decimal place (`lost=129, rcvd=20640` gives `"129 (0.6%)"`);
otherwise — including `rcvd = 0`, so no division by zero can occur —
the result is `str(lost)` alone. -/
theorem c8_packets_lost (raw_cdr : String)
    (hS : cdr_typeOfF (fieldsOf raw_cdr) = "STOP") :
    (dget (parse_cdr_to_dict raw_cdr) "ingress_packets_lost" =
      some (Value.s (packetsLostRender (safe_get (fieldsOf raw_cdr) 41 "")
        (safe_get (unquotedFieldsOf raw_cdr) 64 ""))) ∧
     dget (parse_cdr_to_dict raw_cdr) "egress_packets_lost" =
      some (Value.s (packetsLostRender (safe_get (unquotedFieldsOf raw_cdr) 147 "")
        (safe_get (unquotedFieldsOf raw_cdr) 148 "")))) ∧
    (∀ (rs ls : String) (rcvd lost : Int), pyInt rs = some rcvd →
      pyInt ls = some lost → 0 ≤ lost → 0 < rcvd →
      packetsLostRender rs ls =
        pyIntStr lost ++ " (" ++ fmtFrac1 (lost * 100) rcvd ++ "%)") ∧
    (∀ (rs ls : String) (rcvd lost : Int), pyInt rs = some rcvd →
      pyInt ls = some lost → ¬ (0 ≤ lost ∧ 0 < rcvd) →
      packetsLostRender rs ls = pyIntStr lost) ∧
    (∀ rs ls : String, pyInt rs = none ∨ pyInt ls = none →
      packetsLostRender rs ls = ls) ∧
    packetsLostRender "20640" "129" = "129 (0.6%)" ∧
    packetsLostRender "0" "0" = "0" := by
  refine ⟨⟨?_, ?_⟩, fun rs ls rcvd lost h1 h2 h3 h4 => ?_,
    fun rs ls rcvd lost h1 h2 h3 => ?_, fun rs ls h => ?_, by decide, by decide⟩
  · have hT' : ¬ cdr_typeOfF (fieldsOf raw_cdr) = "START" := by rw [hS]; decide
    unfold parse_cdr_to_dict
    simp only [decodeCore]
    rw [if_neg hT', if_pos hS]
    simp [stopBranch, dget_dset, dget_rtpSet_ne]
  · have hT' : ¬ cdr_typeOfF (fieldsOf raw_cdr) = "START" := by rw [hS]; decide
    unfold parse_cdr_to_dict
    simp only [decodeCore]
    rw [if_neg hT', if_pos hS]
    simp [stopBranch, dget_dset, dget_rtpSet_ne]
  · simp [packetsLostRender, h1, h2, h3, h4]
  · simp [packetsLostRender, h1, h2, if_neg h3]
  · rcases h with h | h
    · simp [packetsLostRender, h]
    · cases hr : pyInt rs <;> simp [packetsLostRender, hr, h]

/-- Witness for C8: the percentage branch applied at
`rcvd = 20640, lost = 129`. -/
theorem c8_packets_lost_witness :
    packetsLostRender "20640" "129" = "129 (0.6%)" := by
  have h := (c8_packets_lost "STOP" (by decide)).2.1
    "20640" "129" 20640 129 (by decide) (by decide) (by decide) (by decide)
  exact h.trans (by decide)

/-! ## Claim C4 -/

/-- Following the claim's numbering: the ordered contents between
matching double quotes of the (stripped) line; segment `k` (1-based)
is entry `k - 1`.  With quotes `q1 … qn` the matching pairs are
`(q1,q2), (q3,q4), …`, so segment `k` is entry `2k - 1` of the
double-quote split. -/
def quotedSegsOf (raw : String) : List String :=
  let parts := splitOnChar quoteCh (pyStripL raw.data)
  (List.range ((parts.length - 1) / 2)).map
    (fun k => String.mk (parts.getD (2 * k + 1) []))

theorem dget_startBranch_calling_name (f u nm : List String) (d : Dict) :
    dget (startBranch f u nm d) "calling_name" = dget d "calling_name" := by
  simp [startBranch, dget_dset, dget_rtpSet_ne]

theorem dget_stopBranch_calling_name (f u nm : List String) (d : Dict) :
    dget (stopBranch f u nm d) "calling_name" = dget d "calling_name" := by
  simp [stopBranch, dget_dset, dget_rtpSet_ne]

theorem dget_attemptBranch_calling_name (f u nm : List String) (d : Dict) :
    dget (attemptBranch f u nm d) "calling_name" = dget d "calling_name" := by
  simp [attemptBranch, dget_dset, dget_rtpSet_ne]

theorem dget_commonPart_calling_name (fields qsplit : List String) :
    dget (commonPart fields qsplit) "calling_name" =
      some (Value.ls (callingNameOfQ qsplit)) := by
  simp only [commonPart]
  rw [dget_dset, if_neg (by decide), dget_dset, if_neg (by decide),
    dget_dset, if_neg (by decide), dget_dset, if_neg (by decide),
    dget_dsetdefault_ne _ _ (by decide), dget_dsetdefault_ne _ _ (by decide)]
  unfold dupdate
  rw [dget_append, dget_side_none _ _ _ _ (by decide) (by decide) (by decide),
    dget_append, dget_side_none _ _ _ _ (by decide) (by decide) (by decide)]
  simp [Option.orElse, dget_dset]

/-- The decoded `calling_name` always comes from `callingNmRawOfQ`
(quote-split index 5), whatever the record type. -/
theorem dget_calling_name (raw_cdr : String) :
    dget (parse_cdr_to_dict raw_cdr) "calling_name" =
      some (Value.ls (callingNameOfQ (quotedSplitOf raw_cdr))) := by
  unfold parse_cdr_to_dict
  simp only [decodeCore]
  by_cases h1 : cdr_typeOfF (fieldsOf raw_cdr) = "START" <;>
    by_cases h2 : cdr_typeOfF (fieldsOf raw_cdr) = "STOP" <;>
      by_cases h3 : cdr_typeOfF (fieldsOf raw_cdr) = "ATTEMPT" <;>
        simp [h1, h2, h3, dget_startBranch_calling_name,
          dget_stopBranch_calling_name, dget_attemptBranch_calling_name,
          dget_commonPart_calling_name]

/-- C4 counterexample: on the concrete `START` line below the quoted
segments (contents between matching quotes, in order) are
`s1 … s5` and the checker field (index 41) is `SIP`; the egress raw
trace taken by the decoder is `s2` — quoted segment **2**, not quoted
segment 3 (`s3`) as the claim states — and the calling name is parsed
from `s3` — quoted segment **3**, not quoted segment 5 (`s5`). -/
theorem c4_counterexample :
    quotedSegsOf
      "START,\"s1\",\"s2\",\"s3\",\"s4\",\"s5\",,,,,,,,,,,,,,,,,,,,,,,,,,,,,,,,,,,,SIP"
      = ["s1", "s2", "s3", "s4", "s5"] ∧
    sipCheck (ingrCkOfF (fieldsOf
      "START,\"s1\",\"s2\",\"s3\",\"s4\",\"s5\",,,,,,,,,,,,,,,,,,,,,,,,,,,,,,,,,,,,SIP"))
      = true ∧
    egrRawOfQ (quotedSplitOf
      "START,\"s1\",\"s2\",\"s3\",\"s4\",\"s5\",,,,,,,,,,,,,,,,,,,,,,,,,,,,,,,,,,,,SIP")
      true = "s2" ∧
    dget (parse_cdr_to_dict
      "START,\"s1\",\"s2\",\"s3\",\"s4\",\"s5\",,,,,,,,,,,,,,,,,,,,,,,,,,,,,,,,,,,,SIP")
      "calling_name" = some (Value.ls ["s3"]) ∧
    ¬ egrRawOfQ (quotedSplitOf
      "START,\"s1\",\"s2\",\"s3\",\"s4\",\"s5\",,,,,,,,,,,,,,,,,,,,,,,,,,,,,,,,,,,,SIP")
      true = "s3" ∧
    ¬ dget (parse_cdr_to_dict
      "START,\"s1\",\"s2\",\"s3\",\"s4\",\"s5\",,,,,,,,,,,,,,,,,,,,,,,,,,,,,,,,,,,,SIP")
      "calling_name" = some (Value.ls ["s5"]) := by
  refine ⟨?_, ?_, ?_, ?_, ?_, ?_⟩ <;> decide

theorem quotedSegsOf_length (raw : String) :
    (quotedSegsOf raw).length =
      ((splitOnChar quoteCh (pyStripL raw.data)).length - 1) / 2 := by
  simp [quotedSegsOf]

theorem quotedSegsOf_getD (raw : String) (k : Nat)
    (hk : k < (quotedSegsOf raw).length) :
    (quotedSegsOf raw).getD k "" =
      String.mk ((splitOnChar quoteCh (pyStripL raw.data)).getD (2 * k + 1) []) := by
  rw [quotedSegsOf_length] at hk
  simp only [quotedSegsOf]
  rw [List.getD_eq_getElem?_getD, List.getElem?_map]
  simp [List.getElem?_range, hk]

theorem safe_get_eq_getD (seq : List String) (n : Nat) (h : n < seq.length) :
    safe_get seq (n : Int) "" = seq.getD n "" := by
  unfold safe_get
  rw [if_pos ⟨Int.natCast_nonneg n, by exact_mod_cast h⟩]
  simp [List.getD_eq_getElem?_getD]

theorem getD_map_mk (l : List (List Char)) (i : Nat) :
    (l.map String.mk).getD i "" = String.mk (l.getD i []) := by
  induction l generalizing i with
  | nil => cases i <;> rfl
  | cons x xs ih =>
      cases i with
      | zero => rfl
      | succ j => simp only [List.map_cons, List.getD_cons_succ]; exact ih j

set_option maxHeartbeats 1000000 in
/-- C4 amended: with quoted segments numbered 1, 2, 3, … over the
contents between matching double quotes in order of appearance, when
the type-specific checker field contains `SIP` or `GSX2GSX` the decoder
takes the ingress trace from quoted segment 1, the egress trace from
quoted segment **2**, and the calling name from quoted segment **3**
(the source indexes the double-quote split at 1, 3 and 5, which are
segments 1, 2 and 3); otherwise ingress is treated as absent and only
quoted segment 1 is tried as the egress trace, as the claim stated. -/
theorem c4_amended (raw_cdr : String)
    (hck : sipCheck (ingrCkOfF (fieldsOf raw_cdr)) = true)
    (hseg : 3 ≤ (quotedSegsOf raw_cdr).length) :
    (ingrRawOfQ (quotedSplitOf raw_cdr) (sipCheck (ingrCkOfF (fieldsOf raw_cdr))) =
      pyStrip ((quotedSegsOf raw_cdr).getD 0 "") ∧
     egrRawOfQ (quotedSplitOf raw_cdr) (sipCheck (ingrCkOfF (fieldsOf raw_cdr))) =
      pyStrip ((quotedSegsOf raw_cdr).getD 1 "") ∧
     callingNmRawOfQ (quotedSplitOf raw_cdr) =
      pyStrip ((quotedSegsOf raw_cdr).getD 2 "")) ∧
    (∀ raw2 : String, 1 ≤ (quotedSegsOf raw2).length →
      egrRawOfQ (quotedSplitOf raw2) false =
        pyStrip ((quotedSegsOf raw2).getD 0 "")) := by
  have hn : 7 ≤ (splitOnChar quoteCh (pyStripL raw_cdr.data)).length := by
    rw [quotedSegsOf_length] at hseg
    have h6 : 3 * 2 ≤ (splitOnChar quoteCh (pyStripL raw_cdr.data)).length - 1 :=
      (Nat.le_div_iff_mul_le (by norm_num)).mp hseg
    omega
  have hq : (quotedSplitOf raw_cdr).length =
      (splitOnChar quoteCh (pyStripL raw_cdr.data)).length := by
    simp [quotedSplitOf]
  constructor
  · rw [hck]
    refine ⟨?_, ?_, ?_⟩
    · show pyStrip (safe_get (quotedSplitOf raw_cdr) ((1 : Nat) : Int) "") = _
      rw [quotedSegsOf_getD raw_cdr 0 (by rw [quotedSegsOf_length]; omega)]
      rw [safe_get_eq_getD _ 1 (by omega), quotedSplitOf, getD_map_mk]
    · show pyStrip (safe_get (quotedSplitOf raw_cdr) ((3 : Nat) : Int) "") = _
      rw [quotedSegsOf_getD raw_cdr 1 (by rw [quotedSegsOf_length]; omega)]
      rw [safe_get_eq_getD _ 3 (by omega), quotedSplitOf, getD_map_mk]
    · show pyStrip (safe_get (quotedSplitOf raw_cdr) ((5 : Nat) : Int) "") = _
      rw [quotedSegsOf_getD raw_cdr 2 (by rw [quotedSegsOf_length]; omega)]
      rw [safe_get_eq_getD _ 5 (by omega), quotedSplitOf, getD_map_mk]
  · intro raw2 hseg2
    have hn2 : 3 ≤ (splitOnChar quoteCh (pyStripL raw2.data)).length := by
      rw [quotedSegsOf_length] at hseg2
      have h2 : 1 * 2 ≤ (splitOnChar quoteCh (pyStripL raw2.data)).length - 1 :=
        (Nat.le_div_iff_mul_le (by norm_num)).mp hseg2
      omega
    have hq2 : (quotedSplitOf raw2).length =
        (splitOnChar quoteCh (pyStripL raw2.data)).length := by
      simp [quotedSplitOf]
    show pyStrip (safe_get (quotedSplitOf raw2) ((1 : Nat) : Int) "") = _
    rw [quotedSegsOf_getD raw2 0 (by rw [quotedSegsOf_length]; omega)]
    rw [safe_get_eq_getD _ 1 (by omega), quotedSplitOf, getD_map_mk]

/-- Witness for C4 amended at the concrete five-segment line. -/
theorem c4_amended_witness :
    egrRawOfQ (quotedSplitOf
      "START,\"s1\",\"s2\",\"s3\",\"s4\",\"s5\",,,,,,,,,,,,,,,,,,,,,,,,,,,,,,,,,,,,SIP")
      (sipCheck (ingrCkOfF (fieldsOf
        "START,\"s1\",\"s2\",\"s3\",\"s4\",\"s5\",,,,,,,,,,,,,,,,,,,,,,,,,,,,,,,,,,,,SIP"))) =
      pyStrip ((quotedSegsOf
        "START,\"s1\",\"s2\",\"s3\",\"s4\",\"s5\",,,,,,,,,,,,,,,,,,,,,,,,,,,,,,,,,,,,SIP").getD 1 "") :=
  ((c4_amended
    "START,\"s1\",\"s2\",\"s3\",\"s4\",\"s5\",,,,,,,,,,,,,,,,,,,,,,,,,,,,,,,,,,,,SIP"
    (by decide) (by decide)).1).2.1

/-! ## Claim C10: leading/trailing-whitespace invariance -/

theorem isPyWs_ne_quote {c : Char} (h : isPyWs c = true) : c ≠ quoteCh := by
  intro hq
  rw [hq] at h
  exact absurd h (by decide)

theorem dropWhile_ws_append (a u : List Char)
    (ha : ∀ c ∈ a, isPyWs c = true) :
    (a ++ u).dropWhile isPyWs = u.dropWhile isPyWs := by
  induction a with
  | nil => rfl
  | cons c a' ih =>
      rw [List.cons_append, List.dropWhile_cons_of_pos (ha c (by simp))]
      exact ih (fun x hx => ha x (by simp [hx]))

theorem dropWhile_idem (p : Char → Bool) (l : List Char) :
    (l.dropWhile p).dropWhile p = l.dropWhile p := by
  induction l with
  | nil => rfl
  | cons c t ih =>
      by_cases hc : p c
      · rw [List.dropWhile_cons_of_pos hc]
        exact ih
      · rw [List.dropWhile_cons_of_neg hc, List.dropWhile_cons_of_neg hc]

theorem pyStripL_ws_front (a u : List Char)
    (ha : ∀ c ∈ a, isPyWs c = true) :
    pyStripL (a ++ u) = pyStripL u := by
  unfold pyStripL
  rw [dropWhile_ws_append a u ha]

theorem dropWhile_ws_all (b : List Char) (hb : ∀ c ∈ b, isPyWs c = true) :
    b.dropWhile isPyWs = [] := by
  induction b with
  | nil => rfl
  | cons c t ih =>
      rw [List.dropWhile_cons_of_pos (hb c (by simp))]
      exact ih (fun x hx => hb x (by simp [hx]))

theorem pyStripL_ws_suffix (u b : List Char)
    (hb : ∀ c ∈ b, isPyWs c = true) :
    pyStripL (u ++ b) = pyStripL u := by
  induction u with
  | nil =>
      show pyStripL ([] ++ b) = pyStripL []
      rw [List.nil_append]
      unfold pyStripL
      rw [dropWhile_ws_all b hb]
      rfl
  | cons c u' ih =>
      by_cases hc : isPyWs c
      · unfold pyStripL
        rw [List.cons_append, List.dropWhile_cons_of_pos hc,
          List.dropWhile_cons_of_pos hc]
        unfold pyStripL at ih
        exact ih
      · unfold pyStripL
        rw [List.cons_append, List.dropWhile_cons_of_neg hc,
          List.dropWhile_cons_of_neg hc]
        rw [List.reverse_cons, List.reverse_cons, List.reverse_append,
          List.append_assoc,
          dropWhile_ws_append b.reverse _
            (fun x hx => hb x (List.mem_reverse.mp hx))]

theorem removeQuotedGo_noquote_pend (b : List Char) (pend : List Char)
    (hb : ∀ c ∈ b, c ≠ quoteCh) :
    removeQuotedGo b (some pend) = pend.reverse ++ b := by
  induction b generalizing pend with
  | nil => simp [removeQuotedGo]
  | cons c t ih =>
      rw [show removeQuotedGo (c :: t) (some pend) =
          (if c = quoteCh then removeQuotedGo t none
           else removeQuotedGo t (some (c :: pend))) from rfl]
      rw [if_neg (hb c (by simp))]
      rw [ih (c :: pend) (fun x hx => hb x (by simp [hx]))]
      simp

theorem removeQuotedGo_noquote_id (b : List Char)
    (hb : ∀ c ∈ b, c ≠ quoteCh) :
    removeQuotedGo b none = b := by
  induction b with
  | nil => rfl
  | cons c t ih =>
      rw [show removeQuotedGo (c :: t) none =
          (if c = quoteCh then removeQuotedGo t (some [c])
           else c :: removeQuotedGo t none) from rfl]
      rw [if_neg (hb c (by simp)), ih (fun x hx => hb x (by simp [hx]))]

theorem removeQuotedGo_append_noquote (t : List Char) :
    ∀ (st : Option (List Char)) (b : List Char), (∀ c ∈ b, c ≠ quoteCh) →
      removeQuotedGo (t ++ b) st = removeQuotedGo t st ++ b := by
  induction t with
  | nil =>
      intro st b hb
      cases st with
      | none => rw [List.nil_append, removeQuotedGo_noquote_id b hb]; rfl
      | some pend =>
          rw [List.nil_append, removeQuotedGo_noquote_pend b pend hb]
          rfl
  | cons c t' ih =>
      intro st b hb
      cases st with
      | none =>
          rw [List.cons_append]
          rw [show removeQuotedGo (c :: (t' ++ b)) none =
              (if c = quoteCh then removeQuotedGo (t' ++ b) (some [c])
               else c :: removeQuotedGo (t' ++ b) none) from rfl]
          rw [show removeQuotedGo (c :: t') none =
              (if c = quoteCh then removeQuotedGo t' (some [c])
               else c :: removeQuotedGo t' none) from rfl]
          by_cases hc : c = quoteCh
          · rw [if_pos hc, if_pos hc, ih (some [c]) b hb]
          · rw [if_neg hc, if_neg hc, ih none b hb]
            rfl
      | some pend =>
          rw [List.cons_append]
          rw [show removeQuotedGo (c :: (t' ++ b)) (some pend) =
              (if c = quoteCh then removeQuotedGo (t' ++ b) none
               else removeQuotedGo (t' ++ b) (some (c :: pend))) from rfl]
          rw [show removeQuotedGo (c :: t') (some pend) =
              (if c = quoteCh then removeQuotedGo t' none
               else removeQuotedGo t' (some (c :: pend))) from rfl]
          by_cases hc : c = quoteCh
          · rw [if_pos hc, if_pos hc, ih none b hb]
          · rw [if_neg hc, if_neg hc, ih (some (c :: pend)) b hb]

theorem removeQuotedL_noquote_front (a t : List Char)
    (ha : ∀ c ∈ a, c ≠ quoteCh) :
    removeQuotedL (a ++ t) = a ++ removeQuotedL t := by
  unfold removeQuotedL
  induction a with
  | nil => rfl
  | cons c a' ih =>
      rw [List.cons_append]
      rw [show removeQuotedGo (c :: (a' ++ t)) none =
          (if c = quoteCh then removeQuotedGo (a' ++ t) (some [c])
           else c :: removeQuotedGo (a' ++ t) none) from rfl]
      rw [if_neg (ha c (by simp)), ih (fun x hx => ha x (by simp [hx]))]
      rfl

theorem removeQuotedL_noquote_suffix (t b : List Char)
    (hb : ∀ c ∈ b, c ≠ quoteCh) :
    removeQuotedL (t ++ b) = removeQuotedL t ++ b := by
  unfold removeQuotedL
  exact removeQuotedGo_append_noquote t none b hb

/-- Stripping before quoted-span removal does not change the stripped
result: the whitespace padding passes through the span remover intact
and is then removed by the outer strip. -/
theorem pyStripL_removeQuotedL_strip (l : List Char) :
    pyStripL (removeQuotedL (pyStripL l)) = pyStripL (removeQuotedL l) := by
  have ha : ∀ c ∈ l.takeWhile isPyWs, isPyWs c = true :=
    fun c hc => List.mem_takeWhile_imp hc
  have haq : ∀ c ∈ l.takeWhile isPyWs, c ≠ quoteCh :=
    fun c hc => isPyWs_ne_quote (ha c hc)
  have hl : l = l.takeWhile isPyWs ++ l.dropWhile isPyWs :=
    (List.takeWhile_append_dropWhile isPyWs l).symm
  have hbws : ∀ c ∈ ((l.dropWhile isPyWs).reverse.takeWhile isPyWs).reverse,
      isPyWs c = true :=
    fun c hc => List.mem_takeWhile_imp (List.mem_reverse.mp hc)
  have hbq : ∀ c ∈ ((l.dropWhile isPyWs).reverse.takeWhile isPyWs).reverse,
      c ≠ quoteCh := fun c hc => isPyWs_ne_quote (hbws c hc)
  have hy : l.dropWhile isPyWs =
      ((l.dropWhile isPyWs).reverse.dropWhile isPyWs).reverse ++
        ((l.dropWhile isPyWs).reverse.takeWhile isPyWs).reverse := by
    rw [← List.reverse_append, List.takeWhile_append_dropWhile, List.reverse_reverse]
  have hstrip : pyStripL l =
      ((l.dropWhile isPyWs).reverse.dropWhile isPyWs).reverse := rfl
  rw [hstrip]
  conv_rhs => rw [hl]
  rw [removeQuotedL_noquote_front _ _ haq,
    pyStripL_ws_front _ _ ha]
  conv_rhs => rw [hy]
  rw [removeQuotedL_noquote_suffix _ _ hbq,
    pyStripL_ws_suffix _ _ hbws]

theorem pyStripL_idem (l : List Char) :
    pyStripL (pyStripL l) = pyStripL l := by
  have hy : l.dropWhile isPyWs =
      ((l.dropWhile isPyWs).reverse.dropWhile isPyWs).reverse ++
        ((l.dropWhile isPyWs).reverse.takeWhile isPyWs).reverse := by
    rw [← List.reverse_append, List.takeWhile_append_dropWhile, List.reverse_reverse]
  have hstrip : pyStripL l =
      ((l.dropWhile isPyWs).reverse.dropWhile isPyWs).reverse := rfl
  rw [hstrip]
  have hdz : ((l.dropWhile isPyWs).reverse.dropWhile isPyWs).reverse.dropWhile isPyWs
      = ((l.dropWhile isPyWs).reverse.dropWhile isPyWs).reverse := by
    cases hz : ((l.dropWhile isPyWs).reverse.dropWhile isPyWs).reverse with
    | nil => rfl
    | cons c z' =>
        have hy' : l.dropWhile isPyWs =
            (c :: z') ++ ((l.dropWhile isPyWs).reverse.takeWhile isPyWs).reverse := by
          conv_lhs => rw [hy]
          rw [hz]
        have hne : l.dropWhile isPyWs ≠ [] := by
          rw [hy']
          simp
        have hhead := List.head_dropWhile_not isPyWs l hne
        have hh2 : (l.dropWhile isPyWs).head? = some c := by
          rw [hy']
          rfl
        have hnotws := List.head?_dropWhile_not isPyWs l
        rw [hh2] at hnotws
        exact List.dropWhile_cons_of_neg (by simp [hnotws])
  show ((((l.dropWhile isPyWs).reverse.dropWhile isPyWs).reverse.dropWhile
      isPyWs).reverse.dropWhile isPyWs).reverse =
    ((l.dropWhile isPyWs).reverse.dropWhile isPyWs).reverse
  rw [hdz, List.reverse_reverse, dropWhile_idem]

/-- C10: decoding is invariant under leading and trailing whitespace:
`parse_cdr_to_dict raw` equals `parse_cdr_to_dict` of the stripped
line, because each of the three tokenisation passes strips the line
(and quoted-span removal commutes with stripping). -/
theorem c10_strip_invariant (raw_cdr : String) :
    parse_cdr_to_dict raw_cdr = parse_cdr_to_dict (pyStrip raw_cdr) := by
  have hdata : (pyStrip raw_cdr).data = pyStripL raw_cdr.data := rfl
  unfold parse_cdr_to_dict fieldsOf quotedSplitOf unquotedFieldsOf
  rw [hdata, pyStripL_idem, pyStripL_removeQuotedL_strip]
